import Mathlib

/-!
Shallow embedding of osg-ca-certs-updater.py.

The embedded parts are the schedule computation (get_times), the timestamp
persistence (get_lastrun_timestamp and save_timestamp), the jitter delay
(wait_random_duration), the random-wait option validation from get_options,
and the run controller (main and the exit-code mapping of safe_main).

Modelling decisions:
* Timestamps and durations are rationals (Python floats idealised to exact
  arithmetic; NaN and infinities are not modelled, the program never
  produces them on these paths).
* The persisted file is an optional list of characters (none when the file
  does not exist).
* The ambient effects are oracles in an Env record: clock n is the value
  returned by the n-th call to time.time() during the run;
  verifyRaises p says whether verify_requirement_available raises
  UpdateError for package p; installed p is the result of
  is_rpm_installed p; yumRaises ps says whether do_yum_update raises
  UpdateError for package list ps; writeOk says whether the timestamp file
  write succeeds; pick is the random draw backing random.randint.
* A run is summarised by its result (normal return value or raised
  exception), the final file state, and the trace of collaborator calls.
-/

namespace Updater

def SECONDS_PER_MINUTE : ℚ := 60

def SECONDS_PER_HOUR : ℚ := 3600

def PACKAGE_LIST : List String := ["osg-ca-certs", "igtf-ca-certs"]

def UNCHECKED_PACKAGE_LIST : List String := ["osg-ca-certs-compat", "igtf-ca-certs-compat"]

/-- Models the whitespace characters (by code point: space, newline, tab,
carriage return) that Python float() strips from its argument. -/
def pyIsSpace (c : Char) : Bool := c.toNat = 32 || c.toNat = 10 || c.toNat = 9 || c.toNat = 13

/-- Decimal digit test by code point, as in Python float() lexing. -/
def isDigitChar (c : Char) : Bool := 48 ≤ c.toNat && c.toNat ≤ 57

/-- Numeric value of a decimal digit character. -/
def digitVal (c : Char) : ℕ := c.toNat - 48

/-- Value of a most-significant-first decimal digit string. -/
def digitsVal (l : List Char) : ℕ := l.foldl (fun a c => 10 * a + digitVal c) 0

/-- The character for a decimal digit. -/
def digitChar (d : ℕ) : Char :=
  match d with
  | 0 => '0'
  | 1 => '1'
  | 2 => '2'
  | 3 => '3'
  | 4 => '4'
  | 5 => '5'
  | 6 => '6'
  | 7 => '7'
  | 8 => '8'
  | _ => '9'

/-- Decimal digit string (most significant first) of a natural number, as
printed by the %d conversion for nonnegative values. -/
def decimalDigits (n : ℕ) : List Char :=
  if n = 0 then ['0'] else ((Nat.digits 10 n).reverse).map digitChar

/-- Decimal rendering of an integer, as printed by the %d conversion. -/
def intDecimal (z : ℤ) : List Char :=
  if z < 0 then '-' :: decimalDigits z.natAbs else decimalDigits z.toNat

/-- Strip leading and trailing whitespace, as Python float() does. -/
def strip (l : List Char) : List Char :=
  ((l.dropWhile pyIsSpace).reverse.dropWhile pyIsSpace).reverse

/-- Split an optional leading sign from a numeric literal: whether the
value is negated, and the remaining characters. -/
def splitSign (l : List Char) : Bool × List Char :=
  match l with
  | [] => (false, [])
  | c :: rest =>
    if c == '-' then (true, rest)
    else if c == '+' then (false, rest)
    else (false, c :: rest)

/-- Models Python float() on the decimal forms this program reads and
writes: optional sign, integer digits, optional fractional part (no
exponent, inf or nan, which never occur in the timestamp file the program
itself writes). Returns none when float() would raise ValueError. -/
def pyFloat (s : List Char) : Option ℚ :=
  let l := strip s
  let sb := splitSign l
  let ip := sb.2.takeWhile isDigitChar
  let rest := sb.2.dropWhile isDigitChar
  if rest = [] then
    if ip = [] then none
    else some (if sb.1 then -(digitsVal ip : ℚ) else (digitsVal ip : ℚ))
  else if rest.head? = some '.' ∧ rest.tail.all isDigitChar = true ∧ (ip ≠ [] ∨ rest.tail ≠ []) then
    let v : ℚ := (digitsVal ip : ℚ) + (digitsVal rest.tail : ℚ) / 10 ^ rest.tail.length
    some (if sb.1 then -v else v)
  else none

/-- Models file readline(): the characters up to and including the first
newline, or the whole content when it has no newline. -/
def readFirstLine (l : List Char) : List Char :=
  l.takeWhile (fun c => !(c == '\x0a')) ++ (l.dropWhile (fun c => !(c == '\x0a'))).take 1

/-- Models Python int() on a float (and the %d conversion of a float):
truncation toward zero. -/
def truncQ (q : ℚ) : ℤ := if 0 ≤ q then ⌊q⌋ else ⌈q⌉

/-- Models get_lastrun_timestamp: none when the file does not exist;
otherwise read the first line and parse it as a float, with a parse
failure logged and turned into none. -/
def get_lastrun_timestamp (store : Option (List Char)) : Option ℚ :=
  match store with
  | none => none
  | some contents => pyFloat (readFirstLine contents)

/-- Models get_times. The source tests the last-run value with Python
truthiness (if not lastrun_timestamp), so both a missing value and a value
equal to 0 select the branch that reads time.time() twice; otherwise the
two window edges are independent offsets from the last-run value. The
clock is passed as the stream of time.time() results together with the
index of the next unread entry, which is threaded through. -/
def get_times (lastrun : Option ℚ) (minimum_age_hours maximum_age_hours : ℚ)
    (clock : ℕ → ℚ) (i : ℕ) : (ℚ × ℚ) × ℕ :=
  match lastrun with
  | none => ((clock i, clock (i + 1)), i + 2)
  | some last =>
    if last = 0 then ((clock i, clock (i + 1)), i + 2)
    else
      ((last + minimum_age_hours * SECONDS_PER_HOUR,
        last + maximum_age_hours * SECONDS_PER_HOUR), i)

/-- Models random.randint a b: some value in the closed interval from a to
b, selected by the draw pick. -/
def pyRandint (a b : ℕ) (pick : ℕ) : ℕ := a + pick % (b + 1 - a)

/-- Models wait_random_duration: truncate the bound to an int; below 1
there is no sleep; otherwise sleep randint 1 n seconds. Returns the slept
duration, if any. -/
def wait_random_duration (random_wait_seconds : ℚ) (pick : ℕ) : Option ℕ :=
  let n := truncQ random_wait_seconds
  if n < 1 then none
  else some (pyRandint 1 n.toNat pick)

/-- Models the content written by save_timestamp: the %d conversion of the
timestamp followed by the newline in the format string and the newline
added by print. -/
def save_contents (timestamp : ℚ) : List Char :=
  intDecimal (truncQ timestamp) ++ ['\x0a', '\x0a']

/-- Models save_timestamp: on a successful write the file now holds the
formatted value and True is returned; an IOError is logged and False is
returned, leaving the file unchanged in this model. -/
def save_timestamp (writeOk : Bool) (store : Option (List Char)) (timestamp : ℚ) :
    Option (List Char) × Bool :=
  if writeOk then (some (save_contents timestamp), true) else (store, false)

/-- Models the validation of the random-wait option in get_options: none
stands for a value float() cannot parse (ValueError), and a negative value
is likewise rejected; both raise UsageError. -/
def validate_random_wait (raw : Option ℚ) : Except Unit ℚ :=
  match raw with
  | none => Except.error ()
  | some q => if q < 0 then Except.error () else Except.ok q

/-- Collaborator calls made during a run. -/
inductive Event
  | verify (pkg : String)
  | yum (pkgs : List String)
  | sleep (secs : ℕ)
  | save (t : ℚ)
deriving DecidableEq

/-- The exceptions that can escape main and are mapped to exit codes by
safe_main (on the paths modelled here). -/
inductive PExc
  | usageError
  | updateError
deriving DecidableEq

/-- Oracles for the external collaborators and ambient effects of one run. -/
structure Env where
  clock : ℕ → ℚ
  verifyRaises : String → Bool
  installed : String → Bool
  yumRaises : List String → Bool
  writeOk : Bool
  pick : ℕ

/-- Result of one run of main: the normal return value or the escaped
exception, the final state of the timestamp file, and the trace of
collaborator calls. -/
structure RunResult where
  exit : Except PExc ℕ
  store : Option (List Char)
  events : List Event

/-- Models the loop over PACKAGE_LIST calling
verify_requirement_available: calls stop at the first package whose check
raises. Returns the trace of verify calls and whether all of them passed. -/
def run_verifies (f : String → Bool) : List String → List Event × Bool
  | [] => ([], true)
  | p :: rest =>
    if f p then ([Event.verify p], false)
    else
      let r := run_verifies f rest
      (Event.verify p :: r.1, r.2)

/-- The package list passed to do_yum_update: the tracked packages plus
the unchecked compat packages, filtered to those reported installed. -/
def installedOf (env : Env) : List String :=
  (PACKAGE_LIST ++ UNCHECKED_PACKAGE_LIST).filter env.installed

/-- The trace of the jitter delay, empty when there is no sleep. -/
def sleep_events (random_wait_minutes : ℚ) (pick : ℕ) : List Event :=
  match wait_random_duration (random_wait_minutes * SECONDS_PER_MINUTE) pick with
  | none => []
  | some d => [Event.sleep d]

/-- Models the body of main after option validation: compute the schedule
window, gate on the clock, jitter, verify each tracked package, run the
yum update over the installed packages, and on success save the current
time; a yum failure is re-raised only when the clock has passed the expire
time. The try block around do_yum_update catches only UpdateError, and
save_timestamp never raises, so only the yum call can enter that handler. -/
def main_post_options (env : Env) (store : Option (List Char)) (minH maxH rw : ℚ) : RunResult :=
  let lastrun := get_lastrun_timestamp store
  let gt := get_times lastrun minH maxH env.clock 0
  let next_update_time := gt.1.1
  let expire_time := gt.1.2
  let i := gt.2
  if next_update_time ≤ env.clock i then
    let sE := sleep_events rw env.pick
    let v := run_verifies env.verifyRaises PACKAGE_LIST
    if v.2 then
      let installed_packages := installedOf env
      if env.yumRaises installed_packages then
        if expire_time ≤ env.clock (i + 1) then
          ⟨Except.error PExc.updateError, store, sE ++ v.1 ++ [Event.yum installed_packages]⟩
        else
          ⟨Except.ok 0, store, sE ++ v.1 ++ [Event.yum installed_packages]⟩
      else
        ⟨Except.ok 0, (save_timestamp env.writeOk store (env.clock (i + 1))).1,
          sE ++ v.1 ++ [Event.yum installed_packages, Event.save (env.clock (i + 1))]⟩
    else
      ⟨Except.error PExc.updateError, store, sE ++ v.1⟩
  else
    ⟨Except.ok 0, store, []⟩

/-- Models main, with the random-wait raw option value still unvalidated
(none stands for an unparsable value): a UsageError from get_options
escapes before any scheduling or collaborator activity. -/
def main (env : Env) (store : Option (List Char)) (minH maxH : ℚ) (rawRW : Option ℚ) :
    RunResult :=
  match validate_random_wait rawRW with
  | Except.error _ => ⟨Except.error PExc.usageError, store, []⟩
  | Except.ok rw => main_post_options env store minH maxH rw

/-- Models the exit-code mapping of safe_main on the modelled paths:
a normal return passes its value through, UsageError maps to 2 and
UpdateError to 1. -/
def safe_main (r : RunResult) : ℕ :=
  match r.exit with
  | Except.ok n => n
  | Except.error PExc.usageError => 2
  | Except.error PExc.updateError => 1

/-- The schedule window and clock cursor main computes for a given store:
get_times applied to the loaded timestamp, starting at clock index 0. -/
abbrev schedOf (env : Env) (store : Option (List Char)) (minH maxH : ℚ) : (ℚ × ℚ) × ℕ :=
  get_times (get_lastrun_timestamp store) minH maxH env.clock 0

/-- The time.time() value read right after the schedule gate: the
timestamp saved on success, and the value compared with expire_time on
failure. -/
abbrev nowAfterGate (env : Env) (store : Option (List Char)) (minH maxH : ℚ) : ℚ :=
  env.clock ((schedOf env store minH maxH).2 + 1)

/-- A stored timestamp file holding 7200. -/
def storeA : List Char := ['7', '2', '0', '0', '\x0a']

/-- A stored timestamp file holding 3600. -/
def storeB : List Char := ['3', '6', '0', '0', '\x0a']

/-- A stored timestamp file holding 0. -/
def storeZ : List Char := ['0', '\x0a']

/-- Run environment: constant clock 10000, repository check failing for
the first tracked package, everything else benign. -/
def envA : Env := ⟨fun _ => 10000, fun p => p == "osg-ca-certs", fun _ => true, fun _ => false, true, 0⟩

/-- Run environment: constant clock 5000, repository check failing for the
second tracked package only. -/
def envB : Env := ⟨fun _ => 5000, fun p => p == "igtf-ca-certs", fun _ => true, fun _ => false, true, 0⟩

/-- Run environment: constant clock 500, all collaborators succeeding. -/
def envC : Env := ⟨fun _ => 500, fun _ => false, fun _ => true, fun _ => false, true, 0⟩

/-- Run environment: strictly increasing clock starting at 1000,
verifications passing, yum failing. -/
def envD : Env := ⟨fun n => (n : ℚ) + 1000, fun _ => false, fun _ => true, fun _ => true, true, 0⟩

/-- Run environment: constant clock 50000, verifications passing, yum
failing. -/
def envE : Env := ⟨fun _ => 50000, fun _ => false, fun _ => true, fun _ => true, true, 3⟩

/-- Run environment: constant clock 999, collaborators succeeding, but the
timestamp write fails. -/
def envF : Env := ⟨fun _ => 999, fun _ => false, fun _ => true, fun _ => false, false, 120⟩

/-- Run environment: constant clock 42, repository check failing for the
first tracked package. -/
def envG : Env := ⟨fun _ => 42, fun p => p == "osg-ca-certs", fun _ => true, fun _ => false, true, 9⟩

/-- A stored timestamp file holding 100000. -/
def storeC : List Char := ['1', '0', '0', '0', '0', '0', '\x0a']

/-- A digit character is not one of the whitespace characters. -/
theorem not_space_of_digit {c : Char} (h : isDigitChar c = true) : pyIsSpace c = false := by
  simp only [isDigitChar, Bool.and_eq_true, decide_eq_true_eq] at h
  simp only [pyIsSpace, Bool.or_eq_false_iff, decide_eq_false_iff_not]
  omega

/-- A digit character differs, under boolean equality, from any
non-digit character. -/
theorem beq_false_of_digit {c : Char} (d : Char) (h : isDigitChar c = true)
    (hd : isDigitChar d = false) : (c == d) = false := by
  cases hb : c == d
  · rfl
  · exfalso
    rw [eq_of_beq hb] at h
    rw [h] at hd
    exact Bool.noConfusion hd

theorem dropWhile_eq_self_of_not {q : Char → Bool} {m : List Char}
    (h : ∀ c ∈ m, q c = false) : m.dropWhile q = m := by
  cases m with
  | nil => rfl
  | cons a l => simp [List.dropWhile_cons, h a (List.mem_cons_self a l)]

theorem takeWhile_eq_self_of_all {q : Char → Bool} {m : List Char}
    (h : ∀ c ∈ m, q c = true) : m.takeWhile q = m := by
  induction m with
  | nil => rfl
  | cons a l ih =>
    simp only [List.takeWhile_cons, h a (List.mem_cons_self a l), if_true]
    rw [ih (fun c hc => h c (List.mem_cons_of_mem a hc))]

theorem dropWhile_eq_nil_of_all {q : Char → Bool} {m : List Char}
    (h : ∀ c ∈ m, q c = true) : m.dropWhile q = [] := by
  induction m with
  | nil => rfl
  | cons a l ih =>
    simp only [List.dropWhile_cons, h a (List.mem_cons_self a l), if_true]
    exact ih (fun c hc => h c (List.mem_cons_of_mem a hc))

theorem takeWhile_append_stop {q : Char → Bool} {m : List Char}
    (h : ∀ c ∈ m, q c = true) (c : Char) (r : List Char) (hc : q c = false) :
    (m ++ c :: r).takeWhile q = m := by
  induction m with
  | nil => simp [List.takeWhile_cons, hc]
  | cons a l ih =>
    simp only [List.cons_append, List.takeWhile_cons, h a (List.mem_cons_self a l), if_true]
    rw [ih (fun x hx => h x (List.mem_cons_of_mem a hx))]

theorem dropWhile_append_stop {q : Char → Bool} {m : List Char}
    (h : ∀ c ∈ m, q c = true) (c : Char) (r : List Char) (hc : q c = false) :
    (m ++ c :: r).dropWhile q = c :: r := by
  induction m with
  | nil => simp [List.dropWhile_cons, hc]
  | cons a l ih =>
    simp only [List.cons_append, List.dropWhile_cons, h a (List.mem_cons_self a l), if_true]
    exact ih (fun x hx => h x (List.mem_cons_of_mem a hx))

/-- Stripping whitespace from an all-digit line removes exactly the
trailing newline. -/
theorem strip_digits {l : List Char} (h1 : l ≠ [])
    (h2 : ∀ c ∈ l, isDigitChar c = true) : strip (l ++ ['\x0a']) = l := by
  obtain ⟨a, t, rfl⟩ := List.exists_cons_of_ne_nil h1
  unfold strip
  have ha : pyIsSpace a = false := not_space_of_digit (h2 a (List.mem_cons_self a t))
  have hfront : ((a :: t) ++ ['\x0a']).dropWhile pyIsSpace = (a :: t) ++ ['\x0a'] := by
    rw [List.cons_append, List.dropWhile_cons, if_neg (by simp [ha])]
  rw [hfront]
  have hrev : ((a :: t) ++ ['\x0a']).reverse = '\x0a' :: (a :: t).reverse := by
    rw [List.reverse_append]
    rfl
  rw [hrev, List.dropWhile_cons, if_pos (by decide)]
  rw [dropWhile_eq_self_of_not (q := pyIsSpace)
    (fun c hc => not_space_of_digit (h2 c (List.mem_reverse.mp hc)))]
  exact List.reverse_reverse _

/-- readline on an all-digit line followed by anything after its newline
returns the digits with the newline. -/
theorem readFirstLine_digits {l : List Char} (h2 : ∀ c ∈ l, isDigitChar c = true)
    (r : List Char) : readFirstLine (l ++ '\x0a' :: r) = l ++ ['\x0a'] := by
  unfold readFirstLine
  have hq : ∀ c ∈ l, (!(c == '\x0a')) = true := by
    intro c hc
    rw [beq_false_of_digit '\x0a' (h2 c hc) (by decide)]
    rfl
  rw [takeWhile_append_stop hq '\x0a' r (by decide), dropWhile_append_stop hq '\x0a' r (by decide)]
  rfl

/-- A leading digit is not consumed as a sign. -/
theorem splitSign_digits {a : Char} (t : List Char) (h : isDigitChar a = true) :
    splitSign (a :: t) = (false, a :: t) := by
  simp only [splitSign]
  rw [beq_false_of_digit '-' h (by decide), beq_false_of_digit '+' h (by decide)]
  simp

/-- float() on a nonempty all-digit line parses it as the decimal value of
its digits. -/
theorem pyFloat_digits {l : List Char} (h1 : l ≠ [])
    (h2 : ∀ c ∈ l, isDigitChar c = true) :
    pyFloat (l ++ ['\x0a']) = some (digitsVal l : ℚ) := by
  simp only [pyFloat]
  rw [strip_digits h1 h2]
  obtain ⟨a, t, rfl⟩ := List.exists_cons_of_ne_nil h1
  rw [splitSign_digits t (h2 a (List.mem_cons_self a t))]
  simp only [takeWhile_eq_self_of_all h2, dropWhile_eq_nil_of_all h2]
  simp

/-- get_lastrun_timestamp on a file whose first line is a nonempty digit
string returns its decimal value. -/
theorem get_lastrun_digits {l : List Char} (h1 : l ≠ [])
    (h2 : ∀ c ∈ l, isDigitChar c = true) (r : List Char) :
    get_lastrun_timestamp (some (l ++ '\x0a' :: r)) = some (digitsVal l : ℚ) := by
  simp only [get_lastrun_timestamp]
  rw [readFirstLine_digits h2 r, pyFloat_digits h1 h2]

theorem digitVal_digitChar {d : ℕ} (h : d < 10) : digitVal (digitChar d) = d := by
  interval_cases d <;> rfl

theorem isDigitChar_digitChar {d : ℕ} (h : d < 10) : isDigitChar (digitChar d) = true := by
  interval_cases d <;> rfl

theorem digitsVal_append_digit (m : List Char) (c : Char) :
    digitsVal (m ++ [c]) = 10 * digitsVal m + digitVal c := by
  simp [digitsVal, List.foldl_append]

/-- Folding the digit characters most-significant-first recovers the value
of the little-endian digit list. -/
theorem digitsVal_rev_map (ds : List ℕ) (h : ∀ d ∈ ds, d < 10) :
    digitsVal (ds.reverse.map digitChar) = Nat.ofDigits 10 ds := by
  induction ds with
  | nil => rfl
  | cons d ds ih =>
    rw [List.reverse_cons, List.map_append, List.map_cons, List.map_nil,
      digitsVal_append_digit, digitVal_digitChar (h d (List.mem_cons_self d ds)),
      ih (fun x hx => h x (List.mem_cons_of_mem d hx)), Nat.ofDigits_cons]
    omega

theorem digitsVal_decimalDigits (n : ℕ) : digitsVal (decimalDigits n) = n := by
  by_cases hn : n = 0
  · subst hn
    decide
  · unfold decimalDigits
    rw [if_neg hn,
      digitsVal_rev_map _ (fun d hd => Nat.digits_lt_base (by norm_num) hd),
      Nat.ofDigits_digits]

theorem all_digits_decimalDigits (n : ℕ) :
    ∀ c ∈ decimalDigits n, isDigitChar c = true := by
  by_cases hn : n = 0
  · subst hn
    intro c hc
    rw [show decimalDigits 0 = ['0'] from rfl, List.mem_singleton] at hc
    subst hc
    decide
  · unfold decimalDigits
    rw [if_neg hn]
    intro c hc
    obtain ⟨d, hd, rfl⟩ := List.mem_map.mp hc
    exact isDigitChar_digitChar (Nat.digits_lt_base (by norm_num) (List.mem_reverse.mp hd))

theorem decimalDigits_ne_nil (n : ℕ) : decimalDigits n ≠ [] := by
  by_cases hn : n = 0
  · subst hn
    decide
  · unfold decimalDigits
    rw [if_neg hn]
    simp [Nat.digits_ne_nil_iff_ne_zero, hn]

theorem truncQ_eq_floor {q : ℚ} (h : 0 ≤ q) : truncQ q = ⌊q⌋ := by
  unfold truncQ
  rw [if_pos h]

theorem truncQ_le {q : ℚ} (h : 0 ≤ q) : (truncQ q : ℚ) ≤ q := by
  rw [truncQ_eq_floor h]
  exact Int.floor_le q

theorem sub_truncQ_lt_one {q : ℚ} (h : 0 ≤ q) : q - (truncQ q : ℚ) < 1 := by
  rw [truncQ_eq_floor h]
  have := Int.sub_one_lt_floor q
  linarith

theorem truncQ_nonneg {q : ℚ} (h : 0 ≤ q) : 0 ≤ truncQ q := by
  rw [truncQ_eq_floor h]
  exact Int.floor_nonneg.mpr h

/-- The file content written for a nonnegative timestamp is its truncation
rendered in decimal, followed by two newlines. -/
theorem save_contents_eq {t : ℚ} (h : 0 ≤ t) :
    save_contents t = decimalDigits (truncQ t).toNat ++ '\x0a' :: ['\x0a'] := by
  unfold save_contents intDecimal
  rw [if_neg (not_lt.mpr (truncQ_nonneg h))]

/-- Loading right after saving a nonnegative timestamp returns its
truncation toward zero. -/
theorem get_lastrun_save {t : ℚ} (h : 0 ≤ t) :
    get_lastrun_timestamp (some (save_contents t)) = some ((truncQ t : ℤ) : ℚ) := by
  rw [save_contents_eq h,
    get_lastrun_digits (decimalDigits_ne_nil _) (all_digits_decimalDigits _) ['\x0a'],
    digitsVal_decimalDigits]
  congr 1
  exact_mod_cast congrArg (Int.cast : ℤ → ℚ) (Int.toNat_of_nonneg (truncQ_nonneg h))

theorem wait_random_duration_zero (pick : ℕ) : wait_random_duration 0 pick = none := by
  have h : truncQ 0 < 1 := by
    rw [truncQ_eq_floor le_rfl]
    simp
  unfold wait_random_duration
  rw [if_pos h]

/-- A slept jitter duration is at least one second and at most the
configured bound. -/
theorem wait_random_duration_le {s : ℚ} {pick d : ℕ}
    (h : wait_random_duration s pick = some d) : 1 ≤ d ∧ (d : ℚ) ≤ s := by
  unfold wait_random_duration at h
  by_cases hn : truncQ s < 1
  · rw [if_pos hn] at h
    exact Option.noConfusion h
  · rw [if_neg hn] at h
    injection h with h
    push_neg at hn
    have h0 : (0 : ℚ) ≤ s := by
      by_contra hs
      push_neg at hs
      have hc : truncQ s ≤ 0 := by
        unfold truncQ
        rw [if_neg (not_le.mpr hs)]
        exact Int.ceil_le.mpr (by exact_mod_cast le_of_lt hs)
      omega
    have hnn : ((truncQ s).toNat : ℤ) = truncQ s := Int.toNat_of_nonneg (by omega)
    have hr : pyRandint 1 (truncQ s).toNat pick ≤ (truncQ s).toNat := by
      unfold pyRandint
      simp only [Nat.add_sub_cancel]
      have hpos : 0 < (truncQ s).toNat := by omega
      have hm : pick % (truncQ s).toNat < (truncQ s).toNat := Nat.mod_lt _ hpos
      omega
    have hr1 : 1 ≤ pyRandint 1 (truncQ s).toNat pick := by
      unfold pyRandint
      omega
    subst h
    refine ⟨hr1, ?_⟩
    have hts : ((truncQ s).toNat : ℚ) ≤ s := by
      have hle := truncQ_le h0
      rw [← hnn] at hle
      exact_mod_cast hle
    exact le_trans (by exact_mod_cast hr) hts

theorem sleep_events_shape (rw : ℚ) (pick : ℕ) :
    ∀ e ∈ sleep_events rw pick, ∃ d, e = Event.sleep d := by
  intro e he
  unfold sleep_events at he
  cases h : wait_random_duration (rw * SECONDS_PER_MINUTE) pick with
  | none =>
    rw [h] at he
    simp at he
  | some d =>
    rw [h] at he
    simp at he
    exact ⟨d, he⟩

theorem main_some {env : Env} {store : Option (List Char)} {minH maxH rw : ℚ}
    (hrw : 0 ≤ rw) :
    main env store minH maxH (some rw) = main_post_options env store minH maxH rw := by
  simp only [main, validate_random_wait, if_neg (not_lt.mpr hrw)]

theorem main_none {env : Env} {store : Option (List Char)} {minH maxH : ℚ} :
    main env store minH maxH none = ⟨Except.error PExc.usageError, store, []⟩ := by
  simp only [main, validate_random_wait]

theorem run_verifies_pass {f : String → Bool} (h1 : f "osg-ca-certs" = false)
    (h2 : f "igtf-ca-certs" = false) :
    run_verifies f PACKAGE_LIST =
      ([Event.verify "osg-ca-certs", Event.verify "igtf-ca-certs"], true) := by
  simp [run_verifies, PACKAGE_LIST, h1, h2]

theorem run_verifies_fail_first {f : String → Bool} (h1 : f "osg-ca-certs" = true) :
    run_verifies f PACKAGE_LIST = ([Event.verify "osg-ca-certs"], false) := by
  simp [run_verifies, PACKAGE_LIST, h1]

theorem run_verifies_fail_second {f : String → Bool} (h1 : f "osg-ca-certs" = false)
    (h2 : f "igtf-ca-certs" = true) :
    run_verifies f PACKAGE_LIST =
      ([Event.verify "osg-ca-certs", Event.verify "igtf-ca-certs"], false) := by
  simp [run_verifies, PACKAGE_LIST, h1, h2]

/-- The skipped run: the gate fails, nothing happens. -/
theorem post_skip {env : Env} {store : Option (List Char)} {minH maxH rw : ℚ}
    (h : ¬ (schedOf env store minH maxH).1.1 ≤ env.clock ((schedOf env store minH maxH).2)) :
    main_post_options env store minH maxH rw = ⟨Except.ok 0, store, []⟩ := by
  simp only [main_post_options]
  rw [if_neg h]

/-- The attempted run whose first repository check raises. -/
theorem post_verify_fail_first {env : Env} {store : Option (List Char)} {minH maxH rw : ℚ}
    (hgate : (schedOf env store minH maxH).1.1 ≤ env.clock ((schedOf env store minH maxH).2))
    (hv1 : env.verifyRaises "osg-ca-certs" = true) :
    main_post_options env store minH maxH rw =
      ⟨Except.error PExc.updateError, store,
        sleep_events rw env.pick ++ [Event.verify "osg-ca-certs"]⟩ := by
  simp only [main_post_options]
  rw [if_pos hgate, run_verifies_fail_first hv1]
  simp

/-- The attempted run whose second repository check raises. -/
theorem post_verify_fail_second {env : Env} {store : Option (List Char)} {minH maxH rw : ℚ}
    (hgate : (schedOf env store minH maxH).1.1 ≤ env.clock ((schedOf env store minH maxH).2))
    (hv1 : env.verifyRaises "osg-ca-certs" = false)
    (hv2 : env.verifyRaises "igtf-ca-certs" = true) :
    main_post_options env store minH maxH rw =
      ⟨Except.error PExc.updateError, store,
        sleep_events rw env.pick ++
          [Event.verify "osg-ca-certs", Event.verify "igtf-ca-certs"]⟩ := by
  simp only [main_post_options]
  rw [if_pos hgate, run_verifies_fail_second hv1 hv2]
  simp

/-- The attempted run whose yum update succeeds: save and return 0. -/
theorem post_yum_success {env : Env} {store : Option (List Char)} {minH maxH rw : ℚ}
    (hgate : (schedOf env store minH maxH).1.1 ≤ env.clock ((schedOf env store minH maxH).2))
    (hv1 : env.verifyRaises "osg-ca-certs" = false)
    (hv2 : env.verifyRaises "igtf-ca-certs" = false)
    (hy : env.yumRaises (installedOf env) = false) :
    main_post_options env store minH maxH rw =
      ⟨Except.ok 0,
        (save_timestamp env.writeOk store (nowAfterGate env store minH maxH)).1,
        sleep_events rw env.pick ++
          [Event.verify "osg-ca-certs", Event.verify "igtf-ca-certs"] ++
          [Event.yum (installedOf env), Event.save (nowAfterGate env store minH maxH)]⟩ := by
  simp only [main_post_options]
  rw [if_pos hgate, run_verifies_pass hv1 hv2]
  simp [hy, nowAfterGate, schedOf]

/-- The attempted run whose yum update raises: the outcome depends only on
the comparison of the post-failure clock reading with expire_time. -/
theorem post_yum_fail {env : Env} {store : Option (List Char)} {minH maxH rw : ℚ}
    (hgate : (schedOf env store minH maxH).1.1 ≤ env.clock ((schedOf env store minH maxH).2))
    (hv1 : env.verifyRaises "osg-ca-certs" = false)
    (hv2 : env.verifyRaises "igtf-ca-certs" = false)
    (hy : env.yumRaises (installedOf env) = true) :
    main_post_options env store minH maxH rw =
      if (schedOf env store minH maxH).1.2 ≤ nowAfterGate env store minH maxH then
        ⟨Except.error PExc.updateError, store,
          sleep_events rw env.pick ++
            [Event.verify "osg-ca-certs", Event.verify "igtf-ca-certs"] ++
            [Event.yum (installedOf env)]⟩
      else
        ⟨Except.ok 0, store,
          sleep_events rw env.pick ++
            [Event.verify "osg-ca-certs", Event.verify "igtf-ca-certs"] ++
            [Event.yum (installedOf env)]⟩ := by
  simp only [main_post_options]
  rw [if_pos hgate, run_verifies_pass hv1 hv2]
  simp [hy, nowAfterGate, schedOf]

/-- get_lastrun_timestamp on a concrete digit line, with the value given
as a natural number. -/
theorem get_lastrun_concrete {l r : List Char} {n : ℕ} (h1 : l ≠ [])
    (h2 : ∀ c ∈ l, isDigitChar c = true) (hv : digitsVal l = n) :
    get_lastrun_timestamp (some (l ++ '\x0a' :: r)) = some (n : ℚ) := by
  rw [get_lastrun_digits h1 h2 r, hv]

/-- float() parses the text 0.0 to the value 0. -/
theorem pyFloat_zero_frac : pyFloat ['0', '.', '0'] = some 0 := by
  have hs : strip ['0', '.', '0'] = ['0', '.', '0'] := by decide
  have hsp : splitSign ['0', '.', '0'] = (false, ['0', '.', '0']) := by decide
  have ht : List.takeWhile isDigitChar ['0', '.', '0'] = ['0'] := by decide
  have hd : List.dropWhile isDigitChar ['0', '.', '0'] = ['.', '0'] := by decide
  have hall : List.all ['0'] isDigitChar = true := by decide
  have hz : digitsVal ['0'] = 0 := by decide
  simp only [pyFloat, hs, hsp, ht, hd]
  simp [hall, hz]

/-- C2, counterexample: a present last-run timestamp equal to 0 is routed
by get_times through the absent branch (Python truthiness of the value 0),
so the window edges are clock readings rather than the claimed offsets
from 0. -/
theorem c2_counterexample :
    (get_times (some 0) 1 2 (fun _ => (1000 : ℚ)) 0).1 = ((1000 : ℚ), (1000 : ℚ)) ∧
    (get_times (some 0) 1 2 (fun _ => (1000 : ℚ)) 0).1 ≠
      ((0 : ℚ) + 1 * SECONDS_PER_HOUR, (0 : ℚ) + 2 * SECONDS_PER_HOUR) := by
  have h : (get_times (some 0) 1 2 (fun _ => (1000 : ℚ)) 0).1 = ((1000 : ℚ), (1000 : ℚ)) := by
    simp [get_times]
  refine ⟨h, ?_⟩
  rw [h]
  norm_num [SECONDS_PER_HOUR, Prod.ext_iff]

/-- C2, amended: for every present nonzero last-run timestamp and every
pair of thresholds, the schedule computation returns
next_update_time = last + minimum_age and expire_time = last + maximum_age,
each offset computed independently of the other. -/
theorem c2_theorem (last minH maxH : ℚ) (clk : ℕ → ℚ) (i : ℕ) (h : last ≠ 0) :
    get_times (some last) minH maxH clk i =
      ((last + minH * SECONDS_PER_HOUR, last + maxH * SECONDS_PER_HOUR), i) := by
  simp [get_times, h]

/-- C2, witness: last run 100 with the maximum age below the minimum age,
exhibiting the independence of the two offsets. -/
theorem c2_witness :
    (100 : ℚ) ≠ 0 ∧
    get_times (some 100) 2 1 (fun _ => (0 : ℚ)) 0 =
      (((100 : ℚ) + 2 * SECONDS_PER_HOUR, (100 : ℚ) + 1 * SECONDS_PER_HOUR), 0) :=
  ⟨by norm_num, c2_theorem 100 2 1 (fun _ => 0) 0 (by norm_num)⟩

/-- C3, counterexample: with the last-run absent, get_times reads the
global clock twice; when the clock advances between the two reads the two
edges differ, so they are not both equal to one single instant, and the
computation is not a function of a now parameter. -/
theorem c3_counterexample :
    (get_times none 0 0 (fun n => (n : ℚ)) 0).1.1 ≠
      (get_times none 0 0 (fun n => (n : ℚ)) 0).1.2 := by
  norm_num [get_times]

/-- C3, amended: with the last-run absent the two edges are two successive
readings of the global clock taken inside the computation (equal to a
single instant now exactly when the clock does not advance between them);
the computation consumes the clock stream instead of a now parameter. -/
theorem c3_theorem (minH maxH : ℚ) (clk : ℕ → ℚ) (i : ℕ) :
    get_times none minH maxH clk i = ((clk i, clk (i + 1)), i + 2) := by
  simp [get_times]

/-- C9: a stored timestamp parsing to 0 (or 0.0) is treated by the
schedule computation identically to an absent record: both edges are clock
readings; consequently under a monotone clock the update is attempted,
and a failing attempt is immediately fatal (exit code 1). -/
theorem c9_theorem (minH maxH : ℚ) (clk : ℕ → ℚ) (i : ℕ) (env : Env) (rw : ℚ)
    (hrw : 0 ≤ rw)
    (hmono : ∀ a b : ℕ, a ≤ b → env.clock a ≤ env.clock b)
    (hv1 : env.verifyRaises "osg-ca-certs" = false)
    (hv2 : env.verifyRaises "igtf-ca-certs" = false)
    (hy : env.yumRaises (installedOf env) = true) :
    get_lastrun_timestamp (some storeZ) = some 0 ∧
    pyFloat ['0', '.', '0'] = some 0 ∧
    get_times (some 0) minH maxH clk i = get_times none minH maxH clk i ∧
    (get_times (some 0) minH maxH clk i).1 = (clk i, clk (i + 1)) ∧
    safe_main (main env (some storeZ) minH maxH (some rw)) = 1 ∧
    Event.yum (installedOf env) ∈ (main env (some storeZ) minH maxH (some rw)).events := by
  have hp : get_lastrun_timestamp (some storeZ) = some 0 := by
    have h := get_lastrun_concrete (l := ['0']) (r := []) (by decide) (by decide)
      (by decide : digitsVal ['0'] = 0)
    simpa [storeZ] using h
  have hsched : schedOf env (some storeZ) minH maxH = ((env.clock 0, env.clock 1), 2) := by
    unfold schedOf
    rw [hp]
    simp [get_times]
  have hgate : (schedOf env (some storeZ) minH maxH).1.1 ≤
      env.clock ((schedOf env (some storeZ) minH maxH).2) := by
    rw [hsched]
    exact hmono 0 2 (by omega)
  have hexp : (schedOf env (some storeZ) minH maxH).1.2 ≤
      nowAfterGate env (some storeZ) minH maxH := by
    unfold nowAfterGate
    rw [hsched]
    exact hmono 1 3 (by omega)
  have hrun : main env (some storeZ) minH maxH (some rw) =
      ⟨Except.error PExc.updateError, some storeZ,
        sleep_events rw env.pick ++
          [Event.verify "osg-ca-certs", Event.verify "igtf-ca-certs"] ++
          [Event.yum (installedOf env)]⟩ := by
    rw [main_some hrw, post_yum_fail hgate hv1 hv2 hy, if_pos hexp]
  refine ⟨hp, pyFloat_zero_frac, by simp [get_times], by simp [get_times], ?_, ?_⟩
  · rw [hrun]
    rfl
  · rw [hrun]
    simp

/-- C9, witness: a run over a stored 0 with increasing clock and failing
yum exits with code 1. -/
theorem c9_witness :
    get_lastrun_timestamp (some storeZ) = some 0 ∧
    pyFloat ['0', '.', '0'] = some 0 ∧
    get_times (some 0) 1 2 (fun _ => (37 : ℚ)) 0 = get_times none 1 2 (fun _ => (37 : ℚ)) 0 ∧
    (get_times (some 0) 1 2 (fun _ => (37 : ℚ)) 0).1 = (37, 37) ∧
    safe_main (main envD (some storeZ) 1 2 (some 0)) = 1 ∧
    Event.yum (installedOf envD) ∈ (main envD (some storeZ) 1 2 (some 0)).events := by
  have hmono : ∀ a b : ℕ, a ≤ b → envD.clock a ≤ envD.clock b := by
    intro a b hab
    show (a : ℚ) + 1000 ≤ (b : ℚ) + 1000
    have hc : (a : ℚ) ≤ (b : ℚ) := by exact_mod_cast hab
    linarith
  exact c9_theorem 1 2 (fun _ => (37 : ℚ)) 0 envD 0 le_rfl hmono rfl rfl rfl

/-- C4: when the clock reading at the gate is strictly before
next_update_time the run is skipped: it returns 0, makes no collaborator
call of any kind, and leaves the timestamp store unchanged. -/
theorem c4_theorem (env : Env) (store : Option (List Char)) (minH maxH rw : ℚ)
    (hrw : 0 ≤ rw)
    (hskip : env.clock ((schedOf env store minH maxH).2) < (schedOf env store minH maxH).1.1) :
    main env store minH maxH (some rw) = ⟨Except.ok 0, store, []⟩ := by
  rw [main_some hrw]
  exact post_skip (not_le.mpr hskip)

/-- C4, witness: a run one hour after a recorded success with a 24 hour
minimum age is skipped with no events and an unchanged store. -/
theorem c4_witness :
    main envA (some storeC) 24 48 (some 0) = ⟨Except.ok 0, some storeC, []⟩ := by
  have hp : get_lastrun_timestamp (some storeC) = some 100000 := by
    have h := get_lastrun_concrete (l := ['1', '0', '0', '0', '0', '0']) (r := [])
      (by decide) (by decide) (by decide : digitsVal ['1', '0', '0', '0', '0', '0'] = 100000)
    have hc : ((100000 : ℕ) : ℚ) = 100000 := by norm_num
    rw [hc] at h
    exact h
  refine c4_theorem envA (some storeC) 24 48 0 le_rfl ?_
  have hsched : schedOf envA (some storeC) 24 48 = ((186400, 272800), 0) := by
    unfold schedOf
    rw [hp]
    norm_num [get_times, SECONDS_PER_HOUR, Prod.ext_iff]
  rw [hsched]
  show (10000 : ℚ) < 186400
  norm_num

/-- C6: saving a nonnegative timestamp and then loading yields the saved
value up to the whole-second precision of the storage format: the loaded
value is the truncation of the saved one and differs from it by less than
one second. -/
theorem c6_theorem (store : Option (List Char)) (t : ℚ) (ht : 0 ≤ t) :
    get_lastrun_timestamp (save_timestamp true store t).1 = some ((truncQ t : ℤ) : ℚ) ∧
    (truncQ t : ℚ) ≤ t ∧ t - (truncQ t : ℚ) < 1 := by
  refine ⟨?_, truncQ_le ht, sub_truncQ_lt_one ht⟩
  exact get_lastrun_save ht

/-- C6, witness: saving 7/2 and loading returns 3, within one second of
the saved value. -/
theorem c6_witness :
    get_lastrun_timestamp (save_timestamp true none (7 / 2)).1 = some ((3 : ℤ) : ℚ) ∧
    ((3 : ℤ) : ℚ) ≤ (7 / 2 : ℚ) ∧ (7 / 2 : ℚ) - ((3 : ℤ) : ℚ) < 1 := by
  have ht : truncQ (7 / 2 : ℚ) = 3 := by
    rw [truncQ_eq_floor (by norm_num)]
    rw [Int.floor_eq_iff]
    norm_num
  have h := c6_theorem none (7 / 2) (by norm_num)
  rw [ht] at h
  exact h

/-- C10: the store persists the timestamp truncated to a whole number of
seconds: for a nonnegative timestamp the persisted value never exceeds it,
differs from it by less than one second, and a subsequent load returns a
whole number of seconds. -/
theorem c10_theorem (store : Option (List Char)) (t : ℚ) (ht : 0 ≤ t) :
    save_contents t = intDecimal (truncQ t) ++ ['\x0a', '\x0a'] ∧
    ∃ z : ℤ, get_lastrun_timestamp (save_timestamp true store t).1 = some ((z : ℤ) : ℚ) ∧
      ((z : ℤ) : ℚ) ≤ t ∧ t - ((z : ℤ) : ℚ) < 1 := by
  refine ⟨rfl, truncQ t, ?_, truncQ_le ht, sub_truncQ_lt_one ht⟩
  exact get_lastrun_save ht

/-- C10, witness: saving 99/10 persists 9, which is below the saved value
and within one second of it. -/
theorem c10_witness :
    save_contents (99 / 10) = intDecimal (truncQ (99 / 10)) ++ ['\x0a', '\x0a'] ∧
    ∃ z : ℤ, get_lastrun_timestamp (save_timestamp true none (99 / 10)).1 = some ((z : ℤ) : ℚ) ∧
      ((z : ℤ) : ℚ) ≤ (99 / 10 : ℚ) ∧ (99 / 10 : ℚ) - ((z : ℤ) : ℚ) < 1 :=
  c10_theorem none (99 / 10) (by norm_num)

/-- C7: when every repository check passes and the yum update succeeds,
the controller saves the clock reading taken after the gate, and the run
is reported successful whether or not that write succeeds; a failed write
leaves the store unchanged. -/
theorem c7_theorem (env : Env) (store : Option (List Char)) (minH maxH rw : ℚ)
    (hrw : 0 ≤ rw)
    (hgate : (schedOf env store minH maxH).1.1 ≤ env.clock ((schedOf env store minH maxH).2))
    (hv1 : env.verifyRaises "osg-ca-certs" = false)
    (hv2 : env.verifyRaises "igtf-ca-certs" = false)
    (hy : env.yumRaises (installedOf env) = false) :
    (main env store minH maxH (some rw)).exit = Except.ok 0 ∧
    safe_main (main env store minH maxH (some rw)) = 0 ∧
    Event.save (nowAfterGate env store minH maxH) ∈ (main env store minH maxH (some rw)).events ∧
    (main env store minH maxH (some rw)).store =
      (save_timestamp env.writeOk store (nowAfterGate env store minH maxH)).1 ∧
    (env.writeOk = false → (main env store minH maxH (some rw)).store = store) := by
  rw [main_some hrw, post_yum_success hgate hv1 hv2 hy]
  refine ⟨rfl, rfl, by simp, rfl, ?_⟩
  intro hw
  simp [save_timestamp, hw]

/-- C7, witness: a successful update whose timestamp write fails still
exits 0, records the save call, and leaves the store unchanged. -/
theorem c7_witness :
    (main envF none 0 0 (some 0)).exit = Except.ok 0 ∧
    safe_main (main envF none 0 0 (some 0)) = 0 ∧
    Event.save (nowAfterGate envF none 0 0) ∈ (main envF none 0 0 (some 0)).events ∧
    (main envF none 0 0 (some 0)).store =
      (save_timestamp envF.writeOk none (nowAfterGate envF none 0 0)).1 ∧
    (envF.writeOk = false → (main envF none 0 0 (some 0)).store = none) := by
  refine c7_theorem envF none 0 0 0 le_rfl ?_ rfl rfl rfl
  exact le_rfl

theorem storeA_parses : get_lastrun_timestamp (some storeA) = some 7200 := by
  have h := get_lastrun_concrete (l := ['7', '2', '0', '0']) (r := [])
    (by decide) (by decide) (by decide : digitsVal ['7', '2', '0', '0'] = 7200)
  have hc : ((7200 : ℕ) : ℚ) = 7200 := by norm_num
  rw [hc] at h
  exact h

theorem storeB_parses : get_lastrun_timestamp (some storeB) = some 3600 := by
  have h := get_lastrun_concrete (l := ['3', '6', '0', '0']) (r := [])
    (by decide) (by decide) (by decide : digitsVal ['3', '6', '0', '0'] = 3600)
  have hc : ((3600 : ℕ) : ℚ) = 3600 := by norm_num
  rw [hc] at h
  exact h

theorem schedA : schedOf envA (some storeA) 0 24 = ((7200, 93600), 0) := by
  unfold schedOf
  rw [storeA_parses]
  norm_num [get_times, SECONDS_PER_HOUR, Prod.ext_iff]

theorem schedE : schedOf envE (some storeA) 0 24 = ((7200, 93600), 0) := by
  unfold schedOf
  rw [storeA_parses]
  norm_num [get_times, SECONDS_PER_HOUR, Prod.ext_iff]

theorem schedB : schedOf envB (some storeB) 0 10 = ((3600, 39600), 0) := by
  unfold schedOf
  rw [storeB_parses]
  norm_num [get_times, SECONDS_PER_HOUR, Prod.ext_iff]

/-- C1, counterexample: with a recorded success at 7200, a 24 hour maximum
age (expire_time 93600) and the clock constantly at 10000, the attempt
fails (the repository check raises) while the current time is strictly
before expire_time, yet the run exits with the reportable code 1 instead
of being classified transient and exiting successfully. -/
theorem c1_counterexample :
    nowAfterGate envA (some storeA) 0 24 < (schedOf envA (some storeA) 0 24).1.2 ∧
    (schedOf envA (some storeA) 0 24).1.1 ≤ envA.clock ((schedOf envA (some storeA) 0 24).2) ∧
    safe_main (main envA (some storeA) 0 24 (some 0)) = 1 := by
  have hgate : (schedOf envA (some storeA) 0 24).1.1 ≤
      envA.clock ((schedOf envA (some storeA) 0 24).2) := by
    rw [schedA]
    show (7200 : ℚ) ≤ 10000
    norm_num
  refine ⟨?_, hgate, ?_⟩
  · unfold nowAfterGate
    rw [schedA]
    show (10000 : ℚ) < 93600
    norm_num
  · rw [main_some le_rfl, post_verify_fail_first hgate rfl]
    rfl

/-- C1, amended: for every run in which the package-update invocation
fails after both repository checks passed, the classification is decided
exactly by comparing the post-failure clock reading with expire_time (at
or past it: reportable exit 1; before it: transient, exit 0), and the
store is untouched; a repository-check failure instead escapes this rule
and is always reportable. -/
theorem c1_theorem (env : Env) (store : Option (List Char)) (minH maxH rw : ℚ)
    (hrw : 0 ≤ rw)
    (hgate : (schedOf env store minH maxH).1.1 ≤ env.clock ((schedOf env store minH maxH).2))
    (hv1 : env.verifyRaises "osg-ca-certs" = false)
    (hv2 : env.verifyRaises "igtf-ca-certs" = false)
    (hy : env.yumRaises (installedOf env) = true) :
    ((schedOf env store minH maxH).1.2 ≤ nowAfterGate env store minH maxH →
      safe_main (main env store minH maxH (some rw)) = 1) ∧
    (nowAfterGate env store minH maxH < (schedOf env store minH maxH).1.2 →
      safe_main (main env store minH maxH (some rw)) = 0) ∧
    (main env store minH maxH (some rw)).store = store := by
  rw [main_some hrw, post_yum_fail hgate hv1 hv2 hy]
  refine ⟨fun hexp => ?_, fun hlt => ?_, ?_⟩
  · rw [if_pos hexp]
    rfl
  · rw [if_neg (not_le.mpr hlt)]
    rfl
  · split <;> rfl

/-- C1, witness: a yum failure at clock 50000 with expire_time 93600 is
transient: the run exits 0 and the store is unchanged. -/
theorem c1_witness :
    safe_main (main envE (some storeA) 0 24 (some 0)) = 0 ∧
    (main envE (some storeA) 0 24 (some 0)).store = some storeA := by
  have hgate : (schedOf envE (some storeA) 0 24).1.1 ≤
      envE.clock ((schedOf envE (some storeA) 0 24).2) := by
    rw [schedE]
    show (7200 : ℚ) ≤ 50000
    norm_num
  have h := c1_theorem envE (some storeA) 0 24 0 le_rfl hgate rfl rfl rfl
  have hlt : nowAfterGate envE (some storeA) 0 24 < (schedOf envE (some storeA) 0 24).1.2 := by
    unfold nowAfterGate
    rw [schedE]
    show (50000 : ℚ) < 93600
    norm_num
  exact ⟨h.2.1 hlt, h.2.2⟩

/-- C5, counterexample: a repository-availability failure (second tracked
package) occurring while the current time is strictly before expire_time
is reported with exit code 1, not classified transient by the controller;
the package updater is never invoked. -/
theorem c5_counterexample :
    nowAfterGate envB (some storeB) 0 10 < (schedOf envB (some storeB) 0 10).1.2 ∧
    safe_main (main envB (some storeB) 0 10 (some 0)) = 1 ∧
    (main envB (some storeB) 0 10 (some 0)).events =
      [Event.verify "osg-ca-certs", Event.verify "igtf-ca-certs"] := by
  have hgate : (schedOf envB (some storeB) 0 10).1.1 ≤
      envB.clock ((schedOf envB (some storeB) 0 10).2) := by
    rw [schedB]
    show (3600 : ℚ) ≤ 5000
    norm_num
  have hsleep : sleep_events 0 envB.pick = [] := by
    unfold sleep_events
    rw [show (0 : ℚ) * SECONDS_PER_MINUTE = 0 from by norm_num, wait_random_duration_zero]
  have hrun : main envB (some storeB) 0 10 (some 0) =
      ⟨Except.error PExc.updateError, some storeB,
        sleep_events 0 envB.pick ++
          [Event.verify "osg-ca-certs", Event.verify "igtf-ca-certs"]⟩ := by
    rw [main_some le_rfl]
    exact post_verify_fail_second hgate rfl rfl
  refine ⟨?_, ?_, ?_⟩
  · unfold nowAfterGate
    rw [schedB]
    show (5000 : ℚ) < 39600
    norm_num
  · rw [hrun]
    rfl
  · rw [hrun]
    show sleep_events 0 envB.pick ++ _ = _
    rw [hsleep]
    rfl

/-- C5, amended: any raised collaborator failure yields a non-success
outcome, but only package-update failures are classified transient or
fatal by the controller through the expire_time rule: a
repository-availability failure propagates directly out of main and is
always reported (exit 1), whatever the expire_time comparison, without the
package updater being invoked and without touching the store. -/
theorem c5_theorem (env : Env) (store : Option (List Char)) (minH maxH rw : ℚ)
    (hrw : 0 ≤ rw)
    (hgate : (schedOf env store minH maxH).1.1 ≤ env.clock ((schedOf env store minH maxH).2))
    (hv1 : env.verifyRaises "osg-ca-certs" = true) :
    (main env store minH maxH (some rw)).exit = Except.error PExc.updateError ∧
    safe_main (main env store minH maxH (some rw)) = 1 ∧
    (main env store minH maxH (some rw)).store = store ∧
    ∀ ps, Event.yum ps ∉ (main env store minH maxH (some rw)).events := by
  rw [main_some hrw, post_verify_fail_first hgate hv1]
  refine ⟨rfl, rfl, rfl, ?_⟩
  intro ps hmem
  simp only [List.mem_append] at hmem
  rcases hmem with hmem | hmem
  · obtain ⟨d, hd⟩ := sleep_events_shape rw env.pick _ hmem
    exact Event.noConfusion hd
  · rw [List.mem_singleton] at hmem
    exact Event.noConfusion hmem

/-- C5, witness: with no run history and the first repository check
raising, the run is reported with exit 1 and yum is never called. -/
theorem c5_witness :
    (main envG none 3 4 (some 2)).exit = Except.error PExc.updateError ∧
    safe_main (main envG none 3 4 (some 2)) = 1 ∧
    (main envG none 3 4 (some 2)).store = none ∧
    ∀ ps, Event.yum ps ∉ (main envG none 3 4 (some 2)).events :=
  c5_theorem envG none 3 4 2 (by norm_num) le_rfl rfl

/-- C8, counterexample: an unparsable jitter bound makes an otherwise
fully successful run exit with the usage-error code 2 before any
scheduling or collaborator activity, instead of proceeding with no delay;
the same run with a valid bound of 0 exits 0. -/
theorem c8_counterexample :
    safe_main (main envC none 0 0 none) = 2 ∧
    (main envC none 0 0 none).events = [] ∧
    safe_main (main envC none 0 0 (some 0)) = 0 := by
  refine ⟨?_, ?_, ?_⟩
  · rw [main_none]
    rfl
  · rw [main_none]
  · have hgate : (schedOf envC none 0 0).1.1 ≤ envC.clock ((schedOf envC none 0 0).2) := le_rfl
    rw [main_some le_rfl, post_yum_success hgate rfl rfl rfl]
    rfl

/-- C8, amended: a slept jitter delay is always between one second and the
configured bound; a bound of zero gives no delay; a non-numeric or
negative bound is rejected at option validation and the run exits with the
usage code 2, before any scheduling or collaborator activity. -/
theorem c8_theorem (s : ℚ) (pick : ℕ) (env : Env) (store : Option (List Char))
    (minH maxH : ℚ) :
    (∀ d, wait_random_duration s pick = some d → 1 ≤ d ∧ (d : ℚ) ≤ s) ∧
    wait_random_duration 0 pick = none ∧
    validate_random_wait none = Except.error () ∧
    validate_random_wait (some (-5)) = Except.error () ∧
    main env store minH maxH none = ⟨Except.error PExc.usageError, store, []⟩ ∧
    safe_main (main env store minH maxH none) = 2 := by
  refine ⟨fun d hd => wait_random_duration_le hd, wait_random_duration_zero pick, rfl, ?_,
    main_none, ?_⟩
  · norm_num [validate_random_wait]
  · rw [main_none]
    rfl

/-- C8, witness: a 45 second bound with draw 7 sleeps 8 seconds, within
the bound; a zero bound sleeps nothing; an unparsable bound exits 2. -/
theorem c8_witness :
    (1 ≤ 8 ∧ ((8 : ℕ) : ℚ) ≤ 45) ∧ wait_random_duration 0 7 = none ∧
    safe_main (main envF none 1 2 none) = 2 := by
  obtain ⟨h1, h2, h3, h4, h5, h6⟩ := c8_theorem 45 7 envF none 1 2
  have ht : truncQ 45 = 45 := by
    rw [truncQ_eq_floor (by norm_num)]
    norm_num
  have hw : wait_random_duration 45 7 = some 8 := by
    simp only [wait_random_duration, ht]
    norm_num [pyRandint, show Int.toNat 45 = 45 from by decide]
  exact ⟨h1 8 hw, h2, h6⟩

end Updater
